import Mathlib

/-!
Verification development for the `command_executor` crypto agent
(`src/code/agents/command_executor`).  The Rust source is shallowly embedded:

* Rust `String`/`&str` values are Lean `String`s; where the source works on
  UTF-8 bytes (`str::len`, byte slicing, `as_bytes`) we encode explicitly via
  `utf8Bytes`/`utf8Len` (bytes are `Nat`s `< 256`).
* Subprocess execution (`OpenSSLCommand::execute`) and the per-request temp
  directory are modelled by an oracle `Env`: `Env.exec` gives the delivered
  `ExecutionResult` of an invocation, `Env.readFile` the bytes of a temp file
  produced by the external tool.  Protocol functions return the
  `Except`-result of the source function together with the ordered list of
  invocations issued (the trace), which the source exposes via its
  `Vec<ExecutionResult>` / invocation sequencing.
* Rust `to_lowercase`/`to_uppercase` are modelled on the ASCII range (all
  allowlist entries are ASCII).
-/

/-! ## UTF-8 and ASCII string primitives -/

/-- UTF-8 encoding of a single scalar value (standard 1-4 byte encoding). -/
def utf8Char (c : Char) : List Nat :=
  let n := c.toNat
  if n < 128 then [n]
  else if n < 2048 then [192 + n / 64, 128 + n % 64]
  else if n < 65536 then [224 + n / 4096, 128 + (n / 64) % 64, 128 + n % 64]
  else [240 + n / 262144, 128 + (n / 4096) % 64, 128 + (n / 64) % 64, 128 + n % 64]

/-- UTF-8 bytes of a string (Rust `str::as_bytes`). -/
def utf8Bytes (s : List Char) : List Nat := s.flatMap utf8Char

/-- Rust `str::len` / byte length. -/
def utf8Len (s : String) : Nat := (utf8Bytes s.data).length

/-- ASCII lower-casing of one character (Rust `to_lowercase` restricted to
the ASCII range, which covers every allowlist entry). -/
def asciiLowerChar (c : Char) : Char :=
  if 65 ≤ c.toNat ∧ c.toNat ≤ 90 then Char.ofNat (c.toNat + 32) else c

def asciiLower (s : String) : String := ⟨s.data.map asciiLowerChar⟩

/-- ASCII upper-casing (Rust `to_uppercase` on ASCII). -/
def asciiUpperChar (c : Char) : Char :=
  if 97 ≤ c.toNat ∧ c.toNat ≤ 122 then Char.ofNat (c.toNat - 32) else c

def asciiUpper (s : String) : String := ⟨s.data.map asciiUpperChar⟩

/-- Unicode `White_Space` code points (Rust `char::is_whitespace`, regex `\s`). -/
def rustIsWs (c : Char) : Bool :=
  c.toNat ∈ [9, 10, 11, 12, 13, 32, 133, 160, 5760, 8192, 8193, 8194, 8195,
    8196, 8197, 8198, 8199, 8200, 8201, 8202, 8232, 8233, 8239, 8287, 12288]

/-- Rust `str::trim`. -/
def rustTrim (s : String) : String :=
  ⟨((s.data.dropWhile rustIsWs).reverse.dropWhile rustIsWs).reverse⟩

/-- Rust `s.split_whitespace().next().unwrap_or("")`: the first
whitespace-delimited token. -/
def firstToken (s : String) : String :=
  ⟨(s.data.dropWhile rustIsWs).takeWhile (fun c => ¬ rustIsWs c)⟩

/-- Boolean substring search (Rust `str::contains` with a string pattern;
the patterns used are ASCII so char = byte granularity). -/
def isInfixB {α : Type} [BEq α] (n : List α) : List α → Bool
  | [] => n.isEmpty
  | c :: t => n.isPrefixOf (c :: t) || isInfixB n t

/-- Rust `str::contains` for string patterns. -/
def containsSub (hay pat : String) : Bool := isInfixB pat.data hay.data

/-- Rust `str::lines`: split on `'\n'`, dropping one trailing `'\r'` per line
and a final empty segment produced by a terminating newline. -/
def splitOnNl : List Char → List (List Char)
  | [] => [[]]
  | c :: t =>
    if c = '\n' then [] :: splitOnNl t
    else match splitOnNl t with
      | [] => [[c]]
      | l :: ls => (c :: l) :: ls

def rustLines (s : String) : List (List Char) :=
  let parts := splitOnNl s.data
  let parts := match parts.reverse with
    | [] :: rest => rest.reverse
    | _ => parts
  parts.map (fun l => match l.reverse with
    | '\r' :: r => r.reverse
    | _ => l)

/-- Rust `str::parse::<usize>` (decimal digits, optional leading `+`). -/
def natParse? (s : List Char) : Option Nat :=
  let digits := match s with
    | '+' :: t => t
    | t => t
  if digits ≠ [] ∧ digits.all (fun c => 48 ≤ c.toNat ∧ c.toNat ≤ 57) then
    some (digits.foldl (fun a c => a * 10 + (c.toNat - 48)) 0)
  else none

/-! ## Hex encoding/decoding (`hex` crate) -/

def hexDigits : List Char := "0123456789abcdefABCDEF".data

def isHexChar (c : Char) : Bool := decide (c ∈ hexDigits)

def hexVal (c : Char) : Nat :=
  if 48 ≤ c.toNat ∧ c.toNat ≤ 57 then c.toNat - 48
  else if 97 ≤ c.toNat ∧ c.toNat ≤ 102 then c.toNat - 87
  else if 65 ≤ c.toNat ∧ c.toNat ≤ 70 then c.toNat - 55
  else 0

def hexPairs : List Char → List Nat
  | c1 :: c2 :: rest => (hexVal c1 * 16 + hexVal c2) :: hexPairs rest
  | _ => []

/-- Model of `hex::decode`: fails on odd length or a non-hex character. -/
def hexDecode (l : List Char) : Option (List Nat) :=
  if l.length % 2 = 0 ∧ l.all isHexChar then some (hexPairs l) else none

/-- The lower-case hex digit for a value `< 16` (`hex::encode` alphabet). -/
def hexDigitChar (n : Nat) : Char :=
  if n < 10 then Char.ofNat (48 + n) else Char.ofNat (87 + n)

/-- Model of `hex::encode` (lower-case). -/
def hexEncode (bs : List Nat) : List Char :=
  bs.flatMap (fun b => [hexDigitChar (b / 16), hexDigitChar (b % 16)])

/-! ## Base64 (`base64` crate, `general_purpose::STANDARD`: canonical
padding required, trailing bits must be zero) -/

def b64Val (c : Char) : Option Nat :=
  if 65 ≤ c.toNat ∧ c.toNat ≤ 90 then some (c.toNat - 65)
  else if 97 ≤ c.toNat ∧ c.toNat ≤ 122 then some (c.toNat - 71)
  else if 48 ≤ c.toNat ∧ c.toNat ≤ 57 then some (c.toNat + 4)
  else if c = '+' then some 62
  else if c = '/' then some 63
  else none

def b64DecodeChunks : List Char → Option (List Nat)
  | [] => some []
  | a :: b :: c :: d :: rest =>
    match b64Val a, b64Val b with
    | some va, some vb =>
      if c = '=' then
        if d = '=' ∧ rest = [] ∧ vb % 16 = 0 then some [va * 4 + vb / 16] else none
      else
        match b64Val c with
        | some vc =>
          if d = '=' then
            if rest = [] ∧ vc % 4 = 0 then some [va * 4 + vb / 16, vb % 16 * 16 + vc / 4]
            else none
          else
            match b64Val d with
            | some vd =>
              (b64DecodeChunks rest).map
                (fun t => (va * 4 + vb / 16) :: (vb % 16 * 16 + vc / 4) :: (vc % 4 * 64 + vd) :: t)
            | none => none
        | none => none
    | _, _ => none
  | _ => none

def b64decode (s : String) : Option (List Nat) := b64DecodeChunks s.data

def b64Alphabet : List Char :=
  "ABCDEFGHIJKLMNOPQRSTUVWXYZabcdefghijklmnopqrstuvwxyz0123456789+/".data

def b64Digit (n : Nat) : Char := b64Alphabet.getD n 'A'

def b64EncodeChunks : List Nat → List Char
  | [] => []
  | [x] => [b64Digit (x / 4), b64Digit (x % 4 * 16), '=', '=']
  | [x, y] => [b64Digit (x / 4), b64Digit (x % 4 * 16 + y / 16), b64Digit (y % 16 * 4), '=']
  | x :: y :: z :: rest =>
    b64Digit (x / 4) :: b64Digit (x % 4 * 16 + y / 16) ::
      b64Digit (y % 16 * 4 + z / 64) :: b64Digit (z % 64) :: b64EncodeChunks rest

/-- Model of `BASE64.encode` with standard alphabet and padding. -/
def b64encode (bs : List Nat) : String := ⟨b64EncodeChunks bs⟩

/-! ## Configuration (`config.rs`) -/

def MAX_INPUT_SIZE : Nat := 1048576

def MAX_OUTPUT_SIZE : Nat := 2097152

/-- Model of `config.rs::ALLOWED_HASH_ALGOS`. -/
def ALLOWED_HASH_ALGOS : List String :=
  ["sha256", "sha384", "sha512", "sha3-256", "sha3-512", "md5", "blake2b512", "blake2s256"]

/-- Model of `config.rs::ALLOWED_SYMMETRIC_CIPHERS`. -/
def ALLOWED_SYMMETRIC_CIPHERS : List String :=
  ["aes-128-cbc", "aes-192-cbc", "aes-256-cbc", "chacha20", "des-ede3-cbc"]

/-- Model of `config.rs::ALLOWED_PQC_SIG_ALGOS`. -/
def ALLOWED_PQC_SIG_ALGOS : List String :=
  ["mldsa44", "mldsa65", "mldsa87", "falcon512", "falcon1024", "falconpadded512",
   "falconpadded1024", "dilithium2", "dilithium3", "dilithium5", "falcon-512", "falcon-1024"]

/-- Model of `config.rs::ALLOWED_PQC_KEM_ALGOS`. -/
def ALLOWED_PQC_KEM_ALGOS : List String :=
  ["mlkem512", "mlkem768", "mlkem1024", "kyber512", "kyber768", "kyber1024"]

/-- Model of `config.rs::get_cipher_key_length`. -/
def get_cipher_key_length (cipher : String) : Option Nat :=
  if cipher = "aes-128-cbc" then some 16
  else if cipher = "aes-192-cbc" then some 24
  else if cipher = "aes-256-cbc" then some 32
  else if cipher = "chacha20" then some 32
  else if cipher = "des-ede3-cbc" then some 24
  else none

/-- Model of `config.rs::get_cipher_iv_length`. -/
def get_cipher_iv_length (cipher : String) : Option Nat :=
  if cipher = "aes-128-cbc" ∨ cipher = "aes-192-cbc" ∨ cipher = "aes-256-cbc" then some 16
  else if cipher = "chacha20" then some 16
  else if cipher = "des-ede3-cbc" then some 8
  else none

/-! ## Validators (`validators.rs`) -/

/-- Model of `validators.rs::ValidationError`. -/
inductive ValidationError where
  | sizeLimitExceeded (max : Nat)
  | invalidHex (msg : String)
  | invalidBase64 (msg : String)
  | invalidKeyLength (expected actual : Nat)
  | invalidIvLength (expected actual : Nat)
  | unsupportedAlgorithm (name : String)
  | unsupportedKeySize (bits : Nat)
  | injectionDetected
  | invalidPem
  | invalidLength (max : Nat)
  deriving DecidableEq, Repr

/-- The `thiserror` `Display` rendering of a `ValidationError` (this is what
`e.to_string()` produces when providers wrap validation errors into
`OpenSSLError::ExecutionFailed`). -/
def ValidationError.toMessage : ValidationError → String
  | .sizeLimitExceeded max => "Input exceeds maximum size of " ++ toString max ++ " bytes"
  | .invalidHex msg => "Invalid hex string: " ++ msg
  | .invalidBase64 msg => "Invalid Base64 string: " ++ msg
  | .invalidKeyLength e a =>
      "Invalid key length: expected " ++ toString e ++ " bytes, got " ++ toString a
  | .invalidIvLength e a =>
      "Invalid IV length: expected " ++ toString e ++ " bytes, got " ++ toString a
  | .unsupportedAlgorithm name => "Unsupported algorithm: " ++ name
  | .unsupportedKeySize bits =>
      "Unsupported RSA key size: " ++ toString bits ++ ". Allowed: 2048, 3072, 4096"
  | .injectionDetected => "Potential injection detected in input"
  | .invalidPem => "Invalid PEM format"
  | .invalidLength max => "Length must be positive and <= " ++ toString max

/-- Model of `validators.rs::validate_size` (operates on a byte slice). -/
def validate_size (data : List Nat) (max_size : Nat) : Except ValidationError Unit :=
  if data.length > max_size then .error (.sizeLimitExceeded max_size) else .ok ()

/-- Model of `validators.rs::validate_hex`.  The even-length check is on the UTF-8
byte length (`hex.len()`); `HEX_REGEX` is `^[0-9a-fA-F]+$`, hence a
non-empty all-hex check; a passing string then hex-decodes. -/
def validate_hex (hex : String) : Except ValidationError (List Nat) :=
  if utf8Len hex % 2 ≠ 0 then
    .error (.invalidHex "Hex string must have even length")
  else if ¬ (hex.data ≠ [] ∧ hex.data.all isHexChar) then
    .error (.invalidHex "Hex string contains invalid characters")
  else
    .ok (hexPairs hex.data)

/-- Model of `validators.rs::validate_aes_key`. -/
def validate_aes_key (key_hex : String) (cipher : String) : Except ValidationError (List Nat) :=
  match get_cipher_key_length cipher with
  | none => .error (.unsupportedAlgorithm cipher)
  | some expected_len =>
    match validate_hex key_hex with
    | .error e => .error e
    | .ok key_bytes =>
      if key_bytes.length ≠ expected_len then
        .error (.invalidKeyLength expected_len key_bytes.length)
      else .ok key_bytes

/-- Model of `validators.rs::validate_aes_iv`. -/
def validate_aes_iv (iv_hex : String) (cipher : String) : Except ValidationError (List Nat) :=
  match get_cipher_iv_length cipher with
  | none => .error (.unsupportedAlgorithm cipher)
  | some expected_len =>
    match validate_hex iv_hex with
    | .error e => .error e
    | .ok iv_bytes =>
      if iv_bytes.length ≠ expected_len then
        .error (.invalidIvLength expected_len iv_bytes.length)
      else .ok iv_bytes

/-- Model of `validators.rs::validate_hash_algo` (allowlist membership of the
lower-cased name, then a canonicalizing match; every set member has an arm,
so the inner catch-all is unreachable but kept for faithfulness). -/
def validate_hash_algo (algo : String) : Except ValidationError String :=
  let l := asciiLower algo
  if l ∈ ALLOWED_HASH_ALGOS then
    if l = "sha256" then .ok "sha256"
    else if l = "sha384" then .ok "sha384"
    else if l = "sha512" then .ok "sha512"
    else if l = "sha3-256" then .ok "sha3-256"
    else if l = "sha3-512" then .ok "sha3-512"
    else if l = "md5" then .ok "md5"
    else if l = "blake2b512" then .ok "blake2b512"
    else if l = "blake2s256" then .ok "blake2s256"
    else .error (.unsupportedAlgorithm algo)
  else .error (.unsupportedAlgorithm algo)

/-- Model of `validators.rs::validate_cipher`. -/
def validate_cipher (cipher : String) : Except ValidationError String :=
  let l := asciiLower cipher
  if l ∈ ALLOWED_SYMMETRIC_CIPHERS then
    if l = "aes-128-cbc" then .ok "aes-128-cbc"
    else if l = "aes-192-cbc" then .ok "aes-192-cbc"
    else if l = "aes-256-cbc" then .ok "aes-256-cbc"
    else if l = "chacha20" then .ok "chacha20"
    else if l = "des-ede3-cbc" then .ok "des-ede3-cbc"
    else .error (.unsupportedAlgorithm cipher)
  else .error (.unsupportedAlgorithm cipher)

/-- The canonicalizing match arms of `validate_pqc_sig_algo` (the source's
`match algo_lower.as_str()`; `none` is its catch-all `return Err` arm). -/
def pqcSigCanon (l : String) : Option String :=
  if l = "mldsa44" ∨ l = "dilithium2" then some "mldsa44"
  else if l = "mldsa65" ∨ l = "dilithium3" then some "mldsa65"
  else if l = "mldsa87" ∨ l = "dilithium5" then some "mldsa87"
  else if l = "falcon512" ∨ l = "falcon-512" then some "falcon512"
  else if l = "falcon1024" ∨ l = "falcon-1024" then some "falcon1024"
  else if l = "falconpadded512" then some "falconpadded512"
  else if l = "falconpadded1024" then some "falconpadded1024"
  else none

/-- Model of `validators.rs::validate_pqc_sig_algo` (legacy aliases resolve to the
standardized spelling). -/
def validate_pqc_sig_algo (algo : String) : Except ValidationError String :=
  let l := asciiLower algo
  if l ∈ ALLOWED_PQC_SIG_ALGOS then
    match pqcSigCanon l with
    | some c => .ok c
    | none => .error (.unsupportedAlgorithm algo)
  else .error (.unsupportedAlgorithm algo)

/-- The canonicalizing match arms of `validate_pqc_kem_algo`. -/
def pqcKemCanon (l : String) : Option String :=
  if l = "mlkem512" ∨ l = "kyber512" then some "mlkem512"
  else if l = "mlkem768" ∨ l = "kyber768" then some "mlkem768"
  else if l = "mlkem1024" ∨ l = "kyber1024" then some "mlkem1024"
  else none

/-- Model of `validators.rs::validate_pqc_kem_algo`. -/
def validate_pqc_kem_algo (algo : String) : Except ValidationError String :=
  let l := asciiLower algo
  if l ∈ ALLOWED_PQC_KEM_ALGOS then
    match pqcKemCanon l with
    | some c => .ok c
    | none => .error (.unsupportedAlgorithm algo)
  else .error (.unsupportedAlgorithm algo)

/-- Model of `INJECTION_REGEX` character class on one character. -/
def isInjectionChar (c : Char) : Bool :=
  c = ';' || c = '&' || c = '|' || c.toNat = 96 || c = '$' ||
    c = '\n' || c.toNat = 13 || c.toNat = 92

/-- Model of `validators.rs::check_injection`. -/
def check_injection (input : String) : Except ValidationError Unit :=
  if input.data.any isInjectionChar then .error .injectionDetected else .ok ()

/-- Model of `validators.rs::validate_length`. -/
def validate_length (length max : Nat) : Except ValidationError Nat :=
  if length = 0 ∨ length > max then .error (.invalidLength max) else .ok length

/-! ## PEM validation (`PEM_REGEX`)

`^-----BEGIN [A-Z ]+-----[\s\S]+-----END [A-Z ]+-----\s*$`.  The checker
below decides this language deterministically: since `'-'` is not in the
label class `[A-Z ]`, the BEGIN label is the maximal class run after the
literal prefix; at the other end the trailing whitespace run, the closing
dashes and the END label are likewise forced (the `"END "` literal must sit
at the start of the maximal class run preceding the closing dashes because
no class character may precede it across the `-----` literal). -/

def pemLabelChar (c : Char) : Bool := (65 ≤ c.toNat ∧ c.toNat ≤ 90) || c = ' '

def pemCheck (s : String) : Bool :=
  let pre := "-----BEGIN ".data
  let dashes := "-----".data
  if pre.isPrefixOf s.data then
    let t := s.data.drop 11
    let l1 := t.takeWhile pemLabelChar
    if l1.isEmpty then false
    else
      let t2 := t.drop l1.length
      if dashes.isPrefixOf t2 then
        let u := t2.drop 5
        let core := (u.reverse.dropWhile rustIsWs).reverse
        if dashes.isSuffixOf core then
          let core2 := core.take (core.length - 5)
          let r := (core2.reverse.takeWhile pemLabelChar).reverse
          if ("END ".data.isPrefixOf r) ∧ 4 < r.length then
            let before := core2.take (core2.length - r.length)
            dashes.isSuffixOf before ∧ 6 ≤ before.length
          else false
        else false
      else false
  else false

/-- Model of `validators.rs::validate_pem`. -/
def validate_pem (pem : String) : Except ValidationError Unit :=
  if pemCheck pem then .ok () else .error .invalidPem

/-! ## Secret redaction (`validators.rs::redact_secret`)

The source works on the UTF-8 bytes of the secret: `secret.len()` is the
byte length, and `&secret[..4]` / `&secret[secret.len()-4..]` are byte
slices that panic when the boundary falls inside a multi-byte character.
The model therefore takes the byte list and returns `none` exactly where
the source panics. -/

/-- A byte that may start a position (not a UTF-8 continuation byte). -/
def notContinuation (b : Nat) : Bool := b < 128 || 192 ≤ b

/-- Rust `str::is_char_boundary` at index `i` of the byte list `s`. -/
def isCharBoundary (s : List Nat) (i : Nat) : Bool :=
  i = 0 || i = s.length || (decide (i < s.length) && notContinuation (s.getD i 0))

/-- Model of `validators.rs::redact_secret` on the secret's UTF-8 bytes; `'*'` is
byte 42, `'.'` byte 46; `none` models the byte-slice panic. -/
def redact_secret (secret : List Nat) : Option (List Nat) :=
  if secret.length ≤ 8 then
    some (List.replicate secret.length 42)
  else if isCharBoundary secret 4 ∧ isCharBoundary secret (secret.length - 4) then
    some (secret.take 4 ++ [46, 46, 46] ++ secret.drop (secret.length - 4))
  else none

/-! ## Command builder and sandbox oracle (`openssl.rs`) -/

/-- Model of `openssl.rs::OpenSSLCommand`: binary name, ordered arguments, recorded
secret positions, optional stdin payload (bytes). -/
structure OpenSSLCommand where
  binary : String
  args : List String
  secretIndices : List Nat
  stdinData : Option (List Nat)
  deriving DecidableEq, Repr

def OpenSSLCommand.new : OpenSSLCommand := ⟨"openssl", [], [], none⟩

def OpenSSLCommand.arg (c : OpenSSLCommand) (a : String) : OpenSSLCommand :=
  { c with args := c.args ++ [a] }

def OpenSSLCommand.secret_arg (c : OpenSSLCommand) (a : String) : OpenSSLCommand :=
  { c with secretIndices := c.secretIndices ++ [c.args.length], args := c.args ++ [a] }

def OpenSSLCommand.stdin (c : OpenSSLCommand) (d : List Nat) : OpenSSLCommand :=
  { c with stdinData := some d }

/-- Model of `OpenSSLCommand::display_command`, at the byte level (the source joins
the parts with `" "`; joining the strings equals joining their UTF-8
bytes).  `none` models the panic `redact_secret` can raise. -/
def display_command (c : OpenSSLCommand) (show_secrets : Bool) : Option (List Nat) :=
  let parts := (List.range c.args.length).mapM (fun i =>
    let a := utf8Bytes ((c.args.getD i "").data)
    if c.secretIndices.contains i ∧ ¬ show_secrets then redact_secret a else some a)
  parts.map (fun ps => (utf8Bytes c.binary.data :: ps).intersperse [32] |>.flatten)

/-- Model of `openssl.rs::ExecutionResult` as delivered to the protocol layer.  The
source captures `stdout` as raw bytes and decodes them lossily wherever it
reads them; the model's oracle hands over the decoded text directly. -/
structure ExecutionResult where
  stdout : String
  stderr : String
  exitCode : Int
  deriving DecidableEq, Repr

/-- Model of `openssl.rs::OpenSSLError` (the constructors the modelled paths can
produce). -/
inductive OpenSSLError where
  | executionFailed (msg : String)
  | timeout (ms : Nat)
  | outputTooLarge (max : Nat)
  deriving DecidableEq, Repr

/-- The sandbox/filesystem oracle: `exec` is the delivered result of an
invocation (`OpenSSLCommand::execute`), `readFile` the bytes a
`ctx.read_temp_file` returns for a given file name. -/
structure Env where
  exec : OpenSSLCommand → ExecutionResult
  readFile : String → List Nat

/-! ## Provider result types (`models.rs`) -/

structure HmacResult where
  mac : String
  algorithm : String
  deriving DecidableEq, Repr

structure AesEncryptResult where
  ciphertext_base64 : String
  iv_hex : String
  hmac_hex : String
  cipher : String
  deriving DecidableEq, Repr

structure AesDecryptResult where
  plaintext : String
  hmac_verified : Bool
  deriving DecidableEq, Repr

structure RsaVerifyResult where
  valid : Bool
  algorithm : String
  deriving DecidableEq, Repr

structure RsaEncryptResult where
  ciphertext_base64 : String
  deriving DecidableEq, Repr

/-! ## Lossy UTF-8 decoding

`String::from_utf8_lossy`, used by the providers to turn captured bytes
into text.  Valid sequences decode exactly; on an invalid sequence the
model emits U+FFFD and resynchronises at the next byte (the source replaces
per maximal subpart; no claim depends on malformed input here). -/

def replChar : Char := Char.ofNat 65533

def utf8DecodeLossyAux : Nat → List Nat → List Char
  | 0, _ => []
  | _, [] => []
  | fuel + 1, b :: r =>
    if b < 128 then Char.ofNat b :: utf8DecodeLossyAux fuel r
    else if 194 ≤ b ∧ b ≤ 223 then
      match r with
      | c :: r2 =>
        if ¬ notContinuation c then
          Char.ofNat ((b - 192) * 64 + (c - 128)) :: utf8DecodeLossyAux fuel r2
        else replChar :: utf8DecodeLossyAux fuel r
      | [] => [replChar]
    else if 224 ≤ b ∧ b ≤ 239 then
      match r with
      | c :: d :: r2 =>
        let n := (b - 224) * 4096 + (c - 128) * 64 + (d - 128)
        if ¬ notContinuation c ∧ ¬ notContinuation d ∧ 2048 ≤ n ∧
            ¬ (55296 ≤ n ∧ n ≤ 57343) then
          Char.ofNat n :: utf8DecodeLossyAux fuel r2
        else replChar :: utf8DecodeLossyAux fuel r
      | _ => [replChar]
    else if 240 ≤ b ∧ b ≤ 244 then
      match r with
      | c :: d :: e :: r2 =>
        let n := (b - 240) * 262144 + (c - 128) * 4096 + (d - 128) * 64 + (e - 128)
        if ¬ notContinuation c ∧ ¬ notContinuation d ∧ ¬ notContinuation e ∧
            65536 ≤ n ∧ n ≤ 1114111 then
          Char.ofNat n :: utf8DecodeLossyAux fuel r2
        else replChar :: utf8DecodeLossyAux fuel r
      | _ => [replChar]
    else replChar :: utf8DecodeLossyAux fuel r

def utf8DecodeLossy (l : List Nat) : String := ⟨utf8DecodeLossyAux l.length l⟩

/-! ## Hashing provider (`providers/hashing.rs`)

The temp-file paths passed to invocations are modelled by their file names
(the per-request directory prefix carries no information here). -/

def vErr (e : ValidationError) : OpenSSLError := .executionFailed e.toMessage

/-- The `openssl dgst -<algo> -mac hmac -macopt hexkey:<key> -r` invocation
of `hmac_hex_key` (stdin carries the data). -/
def hmacHexKeyCmd (data : List Nat) (key_hex algo : String) : OpenSSLCommand :=
  OpenSSLCommand.new.arg "dgst" |>.arg ("-" ++ algo) |>.arg "-mac"
    |>.arg "hmac" |>.arg "-macopt" |>.secret_arg ("hexkey:" ++ key_hex)
    |>.arg "-r" |>.stdin data

/-- Model of `hashing.rs::hmac_hex_key`: HMAC with hex-encoded key over raw bytes.
Returns the source's result together with the trace of issued invocations. -/
def hmac_hex_key (env : Env) (data : List Nat) (key_hex algorithm : String) :
    Except OpenSSLError HmacResult × List OpenSSLCommand :=
  match validate_size data MAX_INPUT_SIZE with
  | .error e => (.error (vErr e), [])
  | .ok _ =>
  match validate_hash_algo algorithm with
  | .error e => (.error (vErr e), [])
  | .ok algo =>
    let cmd := hmacHexKeyCmd data key_hex algo
    let r := env.exec cmd
    if r.exitCode ≠ 0 then (.error (.executionFailed r.stderr), [cmd])
    else (.ok { mac := rustTrim (firstToken r.stdout), algorithm := algo }, [cmd])

/-- Model of `hashing.rs::hmac`: HMAC of text data with a text key.  Note: the key is
passed straight to `secret_arg` — no `check_injection` (or any other
validator) is applied to it. -/
def hmac (env : Env) (data key algorithm : String) :
    Except OpenSSLError HmacResult × List OpenSSLCommand :=
  match validate_size (utf8Bytes data.data) MAX_INPUT_SIZE with
  | .error e => (.error (vErr e), [])
  | .ok _ =>
  match validate_hash_algo algorithm with
  | .error e => (.error (vErr e), [])
  | .ok algo =>
    let cmd := OpenSSLCommand.new.arg "dgst" |>.arg ("-" ++ algo) |>.arg "-hmac"
      |>.secret_arg key |>.arg "-r" |>.stdin (utf8Bytes data.data)
    let r := env.exec cmd
    if r.exitCode ≠ 0 then (.error (.executionFailed r.stderr), [cmd])
    else (.ok { mac := rustTrim (firstToken r.stdout), algorithm := algo }, [cmd])

/-! ## Symmetric provider (`providers/symmetric.rs`) -/

def DEFAULT_CIPHER : String := "aes-256-cbc"

/-- The `openssl enc` encrypt invocation of `aes_encrypt`. -/
def aesEncCmd (cv key_hex iv_hex_final : String) : OpenSSLCommand :=
  OpenSSLCommand.new.arg "enc" |>.arg ("-" ++ cv) |>.arg "-e" |>.arg "-K"
    |>.secret_arg key_hex |>.arg "-iv" |>.arg iv_hex_final |>.arg "-in"
    |>.arg "plaintext.bin" |>.arg "-out" |>.arg "ciphertext.bin"

/-- The `openssl rand -hex n` invocation. -/
def randHexCmd (n : Nat) : OpenSSLCommand :=
  OpenSSLCommand.new.arg "rand" |>.arg "-hex" |>.arg (toString n)

/-- Model of `symmetric.rs::aes_encrypt` (encrypt-then-MAC).  Validation order, the
optional IV-generation invocation, the cipher invocation and the keyed-MAC
invocation over the ciphertext read back from the sandbox follow the
source. -/
def aes_encrypt (env : Env) (plaintext key_hex : String) (iv_hex : Option String)
    (hmac_key_hex : String) (cipher : Option String) :
    Except OpenSSLError AesEncryptResult × List OpenSSLCommand :=
  let cipher_name := cipher.getD DEFAULT_CIPHER
  match validate_cipher cipher_name with
  | .error e => (.error (vErr e), [])
  | .ok cv =>
  match validate_size (utf8Bytes plaintext.data) MAX_INPUT_SIZE with
  | .error e => (.error (vErr e), [])
  | .ok _ =>
  match validate_aes_key key_hex cv with
  | .error e => (.error (vErr e), [])
  | .ok _ =>
    let rest := fun (iv_hex_final : String) (tr0 : List OpenSSLCommand) =>
      match validate_hex hmac_key_hex with
      | .error e => ((.error (vErr e) : Except OpenSSLError AesEncryptResult), tr0)
      | .ok _ =>
        let encCmd := aesEncCmd cv key_hex iv_hex_final
        let er := env.exec encCmd
        if er.exitCode ≠ 0 then (.error (.executionFailed er.stderr), tr0 ++ [encCmd])
        else
          let ciphertext := env.readFile "ciphertext.bin"
          match hmac_hex_key env ciphertext hmac_key_hex "sha256" with
          | (.error e, tr1) => (.error e, tr0 ++ [encCmd] ++ tr1)
          | (.ok hr, tr1) =>
            (.ok { ciphertext_base64 := b64encode ciphertext, iv_hex := iv_hex_final,
                   hmac_hex := hr.mac, cipher := cv }, tr0 ++ [encCmd] ++ tr1)
    match iv_hex with
    | some iv =>
      (match validate_aes_iv iv cv with
       | .error e => (.error (vErr e), [])
       | .ok _ => rest iv [])
    | none =>
      let iv_len := (get_cipher_iv_length cv).getD 16
      let rc := randHexCmd iv_len
      let rr := env.exec rc
      if rr.exitCode ≠ 0 then (.error (.executionFailed rr.stderr), [rc])
      else rest (rustTrim rr.stdout) [rc]

/-- The `openssl enc -d` decrypt invocation of `aes_decrypt`. -/
def aesDecCmd (cv key_hex iv_hex : String) : OpenSSLCommand :=
  OpenSSLCommand.new.arg "enc" |>.arg ("-" ++ cv) |>.arg "-d" |>.arg "-K"
    |>.secret_arg key_hex |>.arg "-iv" |>.arg iv_hex |>.arg "-in"
    |>.arg "ciphertext.bin" |>.arg "-out" |>.arg "plaintext.bin"

/-- Model of `symmetric.rs::aes_decrypt`: verifies the HMAC over the received
ciphertext first (`subtle`'s `ct_eq` is functionally byte-list equality;
its timing behaviour is outside the model) and only then issues the
decrypt invocation.  Error-message texts of the `base64`/`hex` crates are
not modelled verbatim. -/
def aes_decrypt (env : Env) (ciphertext_base64 key_hex iv_hex hmac_key_hex
    expected_hmac : String) (cipher : Option String) :
    Except OpenSSLError AesDecryptResult × List OpenSSLCommand :=
  let cipher_name := cipher.getD DEFAULT_CIPHER
  match validate_cipher cipher_name with
  | .error e => (.error (vErr e), [])
  | .ok cv =>
  match validate_aes_key key_hex cv with
  | .error e => (.error (vErr e), [])
  | .ok _ =>
  match validate_aes_iv iv_hex cv with
  | .error e => (.error (vErr e), [])
  | .ok _ =>
  match validate_hex hmac_key_hex with
  | .error e => (.error (vErr e), [])
  | .ok _ =>
  match validate_hex expected_hmac with
  | .error e => (.error (vErr e), [])
  | .ok _ =>
  match b64decode ciphertext_base64 with
  | none => (.error (.executionFailed "Invalid base64: decode error"), [])
  | some ciphertext =>
  match validate_size ciphertext MAX_INPUT_SIZE with
  | .error e => (.error (vErr e), [])
  | .ok _ =>
  match hmac_hex_key env ciphertext hmac_key_hex "sha256" with
  | (.error e, tr) => (.error e, tr)
  | (.ok computed_hmac, tr) =>
  match hexDecode expected_hmac.data with
  | none => (.error (.executionFailed "Invalid HMAC hex: decode error"), tr)
  | some expected_bytes =>
  match hexDecode computed_hmac.mac.data with
  | none => (.error (.executionFailed "Invalid HMAC hex: decode error"), tr)
  | some computed_bytes =>
  if expected_bytes.length ≠ computed_bytes.length ∨ expected_bytes ≠ computed_bytes then
    (.error (.executionFailed
      "HMAC verification failed! Ciphertext may have been tampered with."), tr)
  else
    let decCmd := aesDecCmd cv key_hex iv_hex
    let dr := env.exec decCmd
    if dr.exitCode ≠ 0 then (.error (.executionFailed dr.stderr), tr ++ [decCmd])
    else
      (.ok { plaintext := utf8DecodeLossy (env.readFile "plaintext.bin"),
             hmac_verified := true }, tr ++ [decCmd])

/-! ## Asymmetric provider (`providers/asymmetric.rs`) -/

def OAEP_HASH_BYTES : Nat := 32

def rustTrimChars (l : List Char) : List Char :=
  ((l.dropWhile rustIsWs).reverse.dropWhile rustIsWs).reverse

/-- Rust `str::find` with a string pattern (first occurrence index; the
model uses char positions where the source uses byte positions — the lines
parsed here are ASCII). -/
def findSubIdx (pat : List Char) : List Char → Option Nat
  | [] => if pat.isEmpty then some 0 else none
  | c :: t => if pat.isPrefixOf (c :: t) then some 0 else (findSubIdx pat t).map (· + 1)

/-- One line of the `-text` key dump: the slice between the first `'('` and
the first `" bit"`, trimmed and parsed (`asymmetric.rs::rsa_key_bits_from_pubkey`
loop body).  When `" bit"` precedes `'('` the source's slice would panic;
no claim depends on such a line and the model treats it as a parse failure. -/
def parseBitsLine (line : List Char) : Option Nat :=
  match line.findIdx? (· = '('), findSubIdx " bit".data line with
  | some st, some en => natParse? (rustTrimChars ((line.drop (st + 1)).take (en - (st + 1))))
  | _, _ => none

/-- First successfully parsed bit size over the output lines. -/
def parseKeyBits (out : String) : Option Nat :=
  (rustLines out).foldl (fun acc line => acc <|> parseBitsLine line) none

/-- The `openssl pkey -pubin -in public.pem -text -noout` introspection
invocation. -/
def rsaKeyBitsCmd : OpenSSLCommand :=
  OpenSSLCommand.new.arg "pkey" |>.arg "-pubin" |>.arg "-in" |>.arg "public.pem"
    |>.arg "-text" |>.arg "-noout"

/-- Model of `asymmetric.rs::rsa_key_bits_from_pubkey`. -/
def rsa_key_bits_from_pubkey (env : Env) : Except OpenSSLError Nat × List OpenSSLCommand :=
  let r := env.exec rsaKeyBitsCmd
  if r.exitCode ≠ 0 then (.error (.executionFailed r.stderr), [rsaKeyBitsCmd])
  else
    match parseKeyBits r.stdout with
    | some bits => (.ok bits, [rsaKeyBitsCmd])
    | none =>
      (.error (.executionFailed "Unable to parse RSA key size from OpenSSL output"),
        [rsaKeyBitsCmd])

/-- The `openssl dgst -<algo> -verify ...` invocation of `rsa_verify`. -/
def rsaVerifyCmd (algo : String) : OpenSSLCommand :=
  OpenSSLCommand.new.arg "dgst" |>.arg ("-" ++ algo) |>.arg "-verify"
    |>.arg "public.pem" |>.arg "-signature" |>.arg "signature.bin" |>.arg "data.bin"

/-- Model of `asymmetric.rs::rsa_verify`: the verdict is
`exit_code == 0 && stdout contains "Verified OK"`, returned as a success
value in every delivered-invocation outcome (no nonzero-exit error path). -/
def rsa_verify (env : Env) (data signature_base64 public_key_pem : String)
    (hash_algo : Option String) :
    Except OpenSSLError RsaVerifyResult × List OpenSSLCommand :=
  match validate_size (utf8Bytes data.data) MAX_INPUT_SIZE with
  | .error e => (.error (vErr e), [])
  | .ok _ =>
  match validate_pem public_key_pem with
  | .error e => (.error (vErr e), [])
  | .ok _ =>
  match validate_hash_algo (hash_algo.getD "sha256") with
  | .error e => (.error (vErr e), [])
  | .ok algo =>
  match b64decode signature_base64 with
  | none => (.error (.executionFailed "Invalid base64 signature: decode error"), [])
  | some _ =>
    let cmd := rsaVerifyCmd algo
    let r := env.exec cmd
    (.ok { valid := decide (r.exitCode = 0) && containsSub r.stdout "Verified OK",
           algorithm := "RSA-" ++ asciiUpper algo }, [cmd])

/-- The `openssl pkeyutl -encrypt` OAEP invocation of `rsa_encrypt`. -/
def rsaEncryptCmd : OpenSSLCommand :=
  OpenSSLCommand.new.arg "pkeyutl" |>.arg "-encrypt" |>.arg "-pubin" |>.arg "-inkey"
    |>.arg "public.pem" |>.arg "-pkeyopt" |>.arg "rsa_padding_mode:oaep"
    |>.arg "-pkeyopt" |>.arg "rsa_oaep_md:sha256" |>.arg "-in" |>.arg "plaintext.bin"
    |>.arg "-out" |>.arg "ciphertext.bin"

/-- Model of `asymmetric.rs::rsa_encrypt`: introspects the public key's modulus size
(one invocation), bounds the OAEP plaintext by
`key_bytes.saturating_sub(2 * OAEP_HASH_BYTES + 2)` and only then issues
the encrypt invocation. -/
def rsa_encrypt (env : Env) (plaintext public_key_pem : String) :
    Except OpenSSLError RsaEncryptResult × List OpenSSLCommand :=
  match validate_pem public_key_pem with
  | .error e => (.error (vErr e), [])
  | .ok _ =>
  match rsa_key_bits_from_pubkey env with
  | (.error e, tr) => (.error e, tr)
  | (.ok key_bits, tr) =>
    let key_bytes := key_bits / 8
    let max_plaintext := key_bytes - (2 * OAEP_HASH_BYTES + 2)
    if max_plaintext = 0 then
      (.error (.executionFailed "RSA key size too small for OAEP-SHA256"), tr)
    else
      match validate_size (utf8Bytes plaintext.data) max_plaintext with
      | .error e => (.error (vErr e), tr)
      | .ok _ =>
        let r := env.exec rsaEncryptCmd
        if r.exitCode ≠ 0 then (.error (.executionFailed r.stderr), tr ++ [rsaEncryptCmd])
        else
          (.ok { ciphertext_base64 := b64encode (env.readFile "ciphertext.bin") },
            tr ++ [rsaEncryptCmd])

/-! ## Concrete fixtures used by witnesses and counterexamples -/

/-- An oracle whose every invocation reports success with stdout `"00 *stdin"`
(so a parsed MAC token of `"00"`), and whose temp files hold `[1, 2, 3]`. -/
def macEnv : Env :=
  { exec := fun _ => { stdout := "00 *stdin\n", stderr := "", exitCode := 0 },
    readFile := fun _ => [1, 2, 3] }

/-- An oracle whose every invocation reports success with a 2048-bit
`-text` key dump on stdout. -/
def rsaBitsEnv : Env :=
  { exec := fun _ => { stdout := "Public-Key: (2048 bit)\n", stderr := "", exitCode := 0 },
    readFile := fun _ => [9] }

/-- An oracle whose every invocation exits 0 printing `"Verified OK"`. -/
def verifyOkEnv : Env :=
  { exec := fun _ => { stdout := "Verified OK\n", stderr := "", exitCode := 0 },
    readFile := fun _ => [] }

/-- A syntactically valid 64-hex-digit AES-256 key. -/
def aesKeyHex : String :=
  "0000000000000000000000000000000000000000000000000000000000000000"

/-- A syntactically valid 32-hex-digit IV. -/
def aesIvHex : String := "00000000000000000000000000000000"

/-- A PEM body accepted by `PEM_REGEX`. -/
def pubPem : String := "-----BEGIN PUBLIC KEY-----\nAAAA\n-----END PUBLIC KEY-----\n"

/-- A 191-byte plaintext (one byte over the 2048-bit OAEP-SHA256 maximum). -/
def longPlain : String := String.mk (List.replicate 191 'a')

/-- Decidable equality for `Except` results. -/
instance {ε α : Type} [DecidableEq ε] [DecidableEq α] : DecidableEq (Except ε α) := fun x y =>
  match x, y with
  | .ok a, .ok b =>
    if h : a = b then isTrue (h ▸ rfl) else isFalse (fun hc => h (Except.ok.inj hc))
  | .error a, .error b =>
    if h : a = b then isTrue (h ▸ rfl) else isFalse (fun hc => h (Except.error.inj hc))
  | .ok _, .error _ => isFalse (fun h => Except.noConfusion h)
  | .error _, .ok _ => isFalse (fun h => Except.noConfusion h)

/-! ## Theorems -/

/-- C3: the guard exists and detects `";"`, yet the `hmac` operation passes
the caller-supplied key to `secret_arg` without ever calling
`check_injection`: the invocation is issued with the raw key among its
arguments and the operation succeeds instead of failing with
`InjectionDetected`. -/
theorem hmac_key_reaches_args_without_injection_check :
    check_injection "k;k" = .error .injectionDetected ∧
    (hmac macEnv "hello" "k;k" "sha256").1 = .ok { mac := "00", algorithm := "sha256" } ∧
    (hmac macEnv "hello" "k;k" "sha256").2 =
      [OpenSSLCommand.new.arg "dgst" |>.arg "-sha256" |>.arg "-hmac"
        |>.secret_arg "k;k" |>.arg "-r" |>.stdin (utf8Bytes "hello".data)] ∧
    "k;k" ∈ ((hmac macEnv "hello" "k;k" "sha256").2.headD OpenSSLCommand.new).args := by
  decide

/-- C10: `redact_secret` byte-slices the secret; on the 9-byte UTF-8 string
`"aaa€aaa"` the index-4 boundary falls inside `'€'` and the source panics
(modelled as `none`) instead of returning a masked string. -/
theorem redact_secret_panics_on_multibyte_secret :
    utf8Bytes "aaa€aaa".data = [97, 97, 97, 226, 130, 172, 97, 97, 97] ∧
    (utf8Bytes "aaa€aaa".data).length = 9 ∧
    redact_secret (utf8Bytes "aaa€aaa".data) = none := by
  decide

/-- C9 counterexample: the empty string has even length and contains no
character outside `[0-9a-fA-F]`, yet `validate_hex` rejects it
(`HEX_REGEX` is `^[0-9a-fA-F]+$`, requiring at least one digit). -/
theorem validate_hex_rejects_empty_string :
    utf8Len "" % 2 = 0 ∧ "".data.all isHexChar = true ∧
    validate_hex "" = .error (.invalidHex "Hex string contains invalid characters") := by
  decide

/-- C5 counterexample: for the secret-tagged argument value `"****"` the
redacted rendering of the command is `"openssl ****"`, which contains the
full secret value. -/
theorem redacted_rendering_contains_full_secret :
    display_command (OpenSSLCommand.new.secret_arg "****") false =
      some (utf8Bytes "openssl ****".data) ∧
    isInfixB (utf8Bytes "****".data) (utf8Bytes "openssl ****".data) = true := by
  decide

set_option maxRecDepth 8192 in
/-- C4 counterexample: an oversized RSA-OAEP plaintext (191 bytes against a
2048-bit key, maximum 190) is rejected with the validation error, but only
after the key-introspection subprocess was invoked: the invocation trace of
the failed request is non-empty. -/
theorem rsa_encrypt_validation_error_after_invocation :
    (rsa_encrypt rsaBitsEnv longPlain pubPem).1 =
      .error (.executionFailed "Input exceeds maximum size of 190 bytes") ∧
    (rsa_encrypt rsaBitsEnv longPlain pubPem).2 = [rsaKeyBitsCmd] ∧
    (rsa_encrypt rsaBitsEnv longPlain pubPem).2 ≠ [] := by
  decide

/-- C5 (amended): each secret-tagged value is rendered through the mask
`redact_secret`: byte length ≤ 8 gives a full per-byte `'*'` mask, longer
values (whose slice boundaries are character boundaries) keep the first and
last 4 bytes around `"..."`; the mask shows the full value only in the
degenerate cases (an all-`'*'` value of length ≤ 8, or an 11-byte value
whose bytes 4..6 are `"..."`). -/
theorem redact_secret_mask_shape (v : List Nat) :
    (v.length ≤ 8 → redact_secret v = some (List.replicate v.length 42)) ∧
    (8 < v.length → isCharBoundary v 4 = true → isCharBoundary v (v.length - 4) = true →
      redact_secret v = some (v.take 4 ++ [46, 46, 46] ++ v.drop (v.length - 4))) ∧
    (¬ (v.length ≤ 8 ∧ v = List.replicate v.length 42) →
     ¬ (v.length = 11 ∧ v.take 4 ++ [46, 46, 46] ++ v.drop 7 = v) →
      redact_secret v ≠ some v) := by
  refine ⟨fun h => by simp [redact_secret, h], fun h h4 hl => ?_,
    fun hn1 hn2 hcontra => ?_⟩
  · rw [redact_secret, if_neg (by omega), if_pos ⟨h4, hl⟩]
  · by_cases hlen : v.length ≤ 8
    · rw [redact_secret, if_pos hlen] at hcontra
      exact hn1 ⟨hlen, (Option.some.inj hcontra).symm⟩
    · by_cases hb : isCharBoundary v 4 = true ∧ isCharBoundary v (v.length - 4) = true
      · rw [redact_secret, if_neg hlen, if_pos hb] at hcontra
        have heq := Option.some.inj hcontra
        have hlv : v.length = 11 := by
          have hc := congrArg List.length heq
          simp [List.length_take, List.length_drop] at hc
          omega
        refine hn2 ⟨hlv, ?_⟩
        have h7 : (7 : Nat) = v.length - 4 := by omega
        rw [h7]
        exact heq
      · rw [redact_secret, if_neg hlen, if_neg hb] at hcontra
        exact Option.noConfusion hcontra

/-- Witness for the amended C5 statement at the 12-byte ASCII secret
`"0123456789ab"`: the mask keeps first/last four bytes and differs from the
value. -/
theorem redact_secret_mask_shape_witness :
    redact_secret (utf8Bytes "0123456789ab".data) = some (utf8Bytes "0123...89ab".data) ∧
    redact_secret (utf8Bytes "0123456789ab".data) ≠ some (utf8Bytes "0123456789ab".data) := by
  constructor
  · rw [(redact_secret_mask_shape (utf8Bytes "0123456789ab".data)).2.1
      (by decide) (by decide) (by decide)]
    decide
  · exact (redact_secret_mask_shape (utf8Bytes "0123456789ab".data)).2.2
      (by decide) (by decide)

/-- Every allowlisted PQC signature name has a canonicalizing match arm. -/
theorem pqcSigCanon_total : ∀ l ∈ ALLOWED_PQC_SIG_ALGOS, (pqcSigCanon l).isSome = true := by
  decide

/-- Every allowlisted PQC KEM name has a canonicalizing match arm. -/
theorem pqcKemCanon_total : ∀ l ∈ ALLOWED_PQC_KEM_ALGOS, (pqcKemCanon l).isSome = true := by
  decide

/-- C8: PQC algorithm validation is an allowlist lookup on the lower-cased
name (names outside the allowlist fail with `UnsupportedAlgorithm`), and
each legacy alias (`dilithiumN`, `falcon-N`, `kyberN`) resolves to the same
canonical spelling as its modern equivalent, case-insensitively. -/
theorem pqc_algo_allowlist_canonicalization :
    (∀ s : String, asciiLower s ∈ ALLOWED_PQC_SIG_ALGOS →
      (validate_pqc_sig_algo s).isOk = true) ∧
    (∀ s : String, asciiLower s ∉ ALLOWED_PQC_SIG_ALGOS →
      validate_pqc_sig_algo s = .error (.unsupportedAlgorithm s)) ∧
    (∀ s : String, asciiLower s ∈ ALLOWED_PQC_KEM_ALGOS →
      (validate_pqc_kem_algo s).isOk = true) ∧
    (∀ s : String, asciiLower s ∉ ALLOWED_PQC_KEM_ALGOS →
      validate_pqc_kem_algo s = .error (.unsupportedAlgorithm s)) ∧
    (validate_pqc_sig_algo "dilithium2" = .ok "mldsa44" ∧
      validate_pqc_sig_algo "mldsa44" = .ok "mldsa44") ∧
    (validate_pqc_sig_algo "dilithium3" = .ok "mldsa65" ∧
      validate_pqc_sig_algo "mldsa65" = .ok "mldsa65") ∧
    (validate_pqc_sig_algo "dilithium5" = .ok "mldsa87" ∧
      validate_pqc_sig_algo "mldsa87" = .ok "mldsa87") ∧
    (validate_pqc_sig_algo "falcon-512" = .ok "falcon512" ∧
      validate_pqc_sig_algo "falcon512" = .ok "falcon512") ∧
    (validate_pqc_sig_algo "falcon-1024" = .ok "falcon1024" ∧
      validate_pqc_sig_algo "falcon1024" = .ok "falcon1024") ∧
    (validate_pqc_kem_algo "kyber512" = .ok "mlkem512" ∧
      validate_pqc_kem_algo "mlkem512" = .ok "mlkem512") ∧
    (validate_pqc_kem_algo "kyber768" = .ok "mlkem768" ∧
      validate_pqc_kem_algo "mlkem768" = .ok "mlkem768") ∧
    (validate_pqc_kem_algo "kyber1024" = .ok "mlkem1024" ∧
      validate_pqc_kem_algo "mlkem1024" = .ok "mlkem1024") ∧
    (validate_pqc_sig_algo "DILITHIUM2" = .ok "mldsa44" ∧
      validate_pqc_kem_algo "Kyber512" = .ok "mlkem512") := by
  refine ⟨fun s h => ?_, fun s h => ?_, fun s h => ?_, fun s h => ?_, ?_⟩
  · have ht := pqcSigCanon_total _ h
    rcases ho : pqcSigCanon (asciiLower s) with _ | c
    · rw [ho] at ht; simp at ht
    · simp [validate_pqc_sig_algo, h, ho, Except.isOk, Except.toBool]
  · simp [validate_pqc_sig_algo, h]
  · have ht := pqcKemCanon_total _ h
    rcases ho : pqcKemCanon (asciiLower s) with _ | c
    · rw [ho] at ht; simp at ht
    · simp [validate_pqc_kem_algo, h, ho, Except.isOk, Except.toBool]
  · simp [validate_pqc_kem_algo, h]
  · decide

/-- Witness for C8 at concrete inputs: a mixed-case legacy alias is accepted
with the canonical result and an unknown name is rejected. -/
theorem pqc_algo_allowlist_canonicalization_witness :
    (validate_pqc_sig_algo "Dilithium2").isOk = true ∧
    validate_pqc_sig_algo "sphincs" = .error (.unsupportedAlgorithm "sphincs") ∧
    (validate_pqc_kem_algo "KYBER768").isOk = true ∧
    validate_pqc_kem_algo "ntru" = .error (.unsupportedAlgorithm "ntru") :=
  ⟨pqc_algo_allowlist_canonicalization.1 "Dilithium2" (by decide),
   pqc_algo_allowlist_canonicalization.2.1 "sphincs" (by decide),
   pqc_algo_allowlist_canonicalization.2.2.1 "KYBER768" (by decide),
   pqc_algo_allowlist_canonicalization.2.2.2.1 "ntru" (by decide)⟩

/-- A hex digit occupies exactly one UTF-8 byte, its own code point. -/
theorem hexChar_utf8 (c : Char) (h : isHexChar c = true) : utf8Char c = [c.toNat] := by
  have hm : c ∈ hexDigits := of_decide_eq_true h
  fin_cases hm <;> decide

/-- Lower-case hex encoding of a digit's value gives the lower-cased digit,
and the value is below 16. -/
theorem hexDigitChar_lower (c : Char) (h : isHexChar c = true) :
    hexDigitChar (hexVal c) = asciiLowerChar c ∧ hexVal c < 16 := by
  have hm : c ∈ hexDigits := of_decide_eq_true h
  fin_cases hm <;> decide

/-- All-hex strings are pure ASCII: byte length equals character count. -/
theorem utf8Bytes_length_of_hex :
    ∀ l : List Char, l.all isHexChar = true → (utf8Bytes l).length = l.length
  | [] => fun _ => rfl
  | c :: t => fun h => by
    simp only [List.all_cons, Bool.and_eq_true] at h
    obtain ⟨hc, ht⟩ := h
    have hrec := utf8Bytes_length_of_hex t ht
    simp only [utf8Bytes, List.flatMap_cons, List.length_append, hexChar_utf8 c hc,
      List.length_cons, List.length_nil] at *
    omega

/-- Re-encoding the decoded pairs of an even-length all-hex string gives its
lower-cased text. -/
theorem hexEncode_hexPairs :
    ∀ l : List Char, l.all isHexChar = true → l.length % 2 = 0 →
      hexEncode (hexPairs l) = l.map asciiLowerChar
  | [] => fun _ _ => rfl
  | [c] => fun _ h => by simp at h
  | c1 :: c2 :: rest => fun hall hlen => by
    simp only [List.all_cons, Bool.and_eq_true] at hall
    obtain ⟨h1, h2, hr⟩ := hall
    have e1 := hexDigitChar_lower c1 h1
    have e2 := hexDigitChar_lower c2 h2
    have hlen' : rest.length % 2 = 0 := by
      simp only [List.length_cons] at hlen; omega
    have hrec := hexEncode_hexPairs rest hr hlen'
    show hexEncode ((hexVal c1 * 16 + hexVal c2) :: hexPairs rest) = _
    simp only [hexEncode, List.flatMap_cons] at hrec ⊢
    have hd : (hexVal c1 * 16 + hexVal c2) / 16 = hexVal c1 := by
      have := e2.2; omega
    have hm : (hexVal c1 * 16 + hexVal c2) % 16 = hexVal c2 := by
      have := e2.2; omega
    rw [hd, hm, e1.1, e2.1, hrec]
    simp

/-- C9 (amended): `validate_hex` succeeds exactly on non-empty strings of
even (byte) length consisting solely of `[0-9a-fA-F]` (the empty string is
additionally rejected by `HEX_REGEX`'s `+`), and on success it returns the
byte sequence whose hex encoding is the lower-cased input. -/
theorem validate_hex_characterization (s : String) :
    ((validate_hex s).isOk = true ↔
      utf8Len s % 2 = 0 ∧ s.data ≠ [] ∧ s.data.all isHexChar = true) ∧
    (∀ bs, validate_hex s = .ok bs → hexEncode bs = s.data.map asciiLowerChar) := by
  constructor
  · constructor
    · intro h
      rw [validate_hex] at h
      by_cases h1 : utf8Len s % 2 ≠ 0
      · rw [if_pos h1] at h; simp [Except.isOk, Except.toBool] at h
      · rw [if_neg h1] at h
        by_cases h2 : ¬ (s.data ≠ [] ∧ s.data.all isHexChar = true)
        · rw [if_pos h2] at h; simp [Except.isOk, Except.toBool] at h
        · rcases not_not.mp h2 with ⟨hne, hall⟩
          exact ⟨not_not.mp h1, hne, hall⟩
    · rintro ⟨he, hne, hall⟩
      rw [validate_hex, if_neg (by omega), if_neg (by exact not_not.mpr ⟨hne, hall⟩)]
      rfl
  · intro bs hbs
    rw [validate_hex] at hbs
    by_cases h1 : utf8Len s % 2 ≠ 0
    · rw [if_pos h1] at hbs; exact absurd hbs (by simp)
    · rw [if_neg h1] at hbs
      by_cases h2 : ¬ (s.data ≠ [] ∧ s.data.all isHexChar = true)
      · rw [if_pos h2] at hbs; exact absurd hbs (by simp)
      · rw [if_neg h2] at hbs
        rcases not_not.mp h2 with ⟨_, hall⟩
        have hlen : s.data.length % 2 = 0 := by
          have hb := utf8Bytes_length_of_hex s.data hall
          have : utf8Len s = (utf8Bytes s.data).length := rfl
          omega
        rw [← Except.ok.inj hbs]
        exact hexEncode_hexPairs s.data hall hlen

/-- Witness for the amended C9 statement at `"0AfF"` (accepted, decodes to
`[0x0A, 0xFF]`, re-encodes to the lower-cased input) and `"abc"` (odd
length, rejected). -/
theorem validate_hex_characterization_witness :
    (validate_hex "0AfF").isOk = true ∧
    hexEncode [10, 255] = "0aff".data ∧
    (validate_hex "abc").isOk = false := by
  refine ⟨(validate_hex_characterization "0AfF").1.mpr (by decide), ?_, ?_⟩
  · have h := (validate_hex_characterization "0AfF").2 [10, 255] (by decide)
    rw [h]; decide
  · have h := (validate_hex_characterization "abc").1
    by_cases hb : (validate_hex "abc").isOk = true
    · exact absurd (h.mp hb) (by decide)
    · simpa using hb

/-- C6: once the verify invocation is reached, the result is always a
success value whose `valid` flag is exactly `exit code = 0 AND stdout
contains "Verified OK"`; no delivered outcome produces an execution
error. -/
theorem rsa_verify_marker_determines_validity
    (env : Env) (data sig pk : String) (algo : Option String) (av : String) (sb : List Nat)
    (h1 : utf8Len data ≤ MAX_INPUT_SIZE)
    (h2 : validate_pem pk = .ok ())
    (h3 : validate_hash_algo (algo.getD "sha256") = .ok av)
    (h4 : b64decode sig = some sb) :
    rsa_verify env data sig pk algo =
      (.ok { valid := decide ((env.exec (rsaVerifyCmd av)).exitCode = 0) &&
                      containsSub (env.exec (rsaVerifyCmd av)).stdout "Verified OK",
             algorithm := "RSA-" ++ asciiUpper av },
       [rsaVerifyCmd av]) ∧
    ((rsa_verify env data sig pk algo).1 =
        .ok { valid := true, algorithm := "RSA-" ++ asciiUpper av } ↔
      (env.exec (rsaVerifyCmd av)).exitCode = 0 ∧
        containsSub (env.exec (rsaVerifyCmd av)).stdout "Verified OK" = true) := by
  have hs : validate_size (utf8Bytes data.data) MAX_INPUT_SIZE = .ok () := by
    have h1' : ¬ (utf8Bytes data.data).length > MAX_INPUT_SIZE := by
      simpa [utf8Len] using Nat.not_lt.mpr h1
    rw [validate_size, if_neg h1']
  have hmain : rsa_verify env data sig pk algo =
      (.ok { valid := decide ((env.exec (rsaVerifyCmd av)).exitCode = 0) &&
                      containsSub (env.exec (rsaVerifyCmd av)).stdout "Verified OK",
             algorithm := "RSA-" ++ asciiUpper av },
       [rsaVerifyCmd av]) := by
    simp only [rsa_verify, hs, h2, h3, h4]
  refine ⟨hmain, ?_⟩
  rw [hmain]
  simp [RsaVerifyResult.mk.injEq, Bool.and_eq_true, decide_eq_true_iff]

/-- Witness for C6: with an oracle that exits 0 printing `"Verified OK"`,
verification reports `valid = true`. -/
theorem rsa_verify_marker_witness :
    rsa_verify verifyOkEnv "msg" "AAAA" pubPem none =
      (.ok { valid := true, algorithm := "RSA-SHA256" }, [rsaVerifyCmd "sha256"]) := by
  have h := (rsa_verify_marker_determines_validity verifyOkEnv "msg" "AAAA" pubPem none
    "sha256" [0, 0, 0] (by decide) (by decide) (by decide) (by decide)).1
  rw [h]
  decide

/-- Behaviour of `rsa_encrypt` once the key introspection has delivered a
bit size whose OAEP budget is positive: the plaintext bound is checked
before the encrypt invocation is issued. -/
theorem rsa_encrypt_unfold (env : Env) (pt pk : String) (kb : Nat)
    (h1 : validate_pem pk = .ok ())
    (h2 : (env.exec rsaKeyBitsCmd).exitCode = 0)
    (h3 : parseKeyBits (env.exec rsaKeyBitsCmd).stdout = some kb)
    (hmax : 0 < kb / 8 - (2 * OAEP_HASH_BYTES + 2)) :
    rsa_encrypt env pt pk =
      (if utf8Len pt > kb / 8 - (2 * OAEP_HASH_BYTES + 2) then
        (.error (vErr (.sizeLimitExceeded (kb / 8 - (2 * OAEP_HASH_BYTES + 2)))),
         [rsaKeyBitsCmd])
      else if (env.exec rsaEncryptCmd).exitCode ≠ 0 then
        (.error (.executionFailed (env.exec rsaEncryptCmd).stderr),
         [rsaKeyBitsCmd, rsaEncryptCmd])
      else
        (.ok { ciphertext_base64 := b64encode (env.readFile "ciphertext.bin") },
         [rsaKeyBitsCmd, rsaEncryptCmd])) := by
  have hmax0 : ¬ (kb / 8 - (2 * OAEP_HASH_BYTES + 2) = 0) := by omega
  by_cases hsz : utf8Len pt > kb / 8 - (2 * OAEP_HASH_BYTES + 2)
  · have hsz' : (utf8Bytes pt.data).length > kb / 8 - (2 * OAEP_HASH_BYTES + 2) := hsz
    simp only [rsa_encrypt, rsa_key_bits_from_pubkey, h1, h2, h3, validate_size]
    simp [h2]
    rw [if_neg hmax0, if_pos hsz', if_pos hsz]
  · have hsz' : ¬ (utf8Bytes pt.data).length > kb / 8 - (2 * OAEP_HASH_BYTES + 2) := hsz
    by_cases henc : (env.exec rsaEncryptCmd).exitCode ≠ 0
    · simp only [rsa_encrypt, rsa_key_bits_from_pubkey, h1, h3, validate_size]
      simp [h2, henc]
      rw [if_neg hmax0, if_neg hsz', if_neg hsz]
    · simp only [rsa_encrypt, rsa_key_bits_from_pubkey, h1, h3, validate_size]
      simp [h2, henc]
      rw [if_neg hmax0, if_neg hsz', if_neg hsz]

/-- C7: `rsa_encrypt` first introspects the public key, computes the OAEP
bound `keyBytes − 2·32 − 2`, rejects longer plaintexts before the encrypt
invocation (the failed trace holds only the introspection invocation), and
lets plaintext at the bound through to the encrypt invocation (trace =
introspection then encrypt). -/
theorem rsa_encrypt_oaep_bound (env : Env) (pt pk : String) (kb : Nat)
    (h1 : validate_pem pk = .ok ())
    (h2 : (env.exec rsaKeyBitsCmd).exitCode = 0)
    (h3 : parseKeyBits (env.exec rsaKeyBitsCmd).stdout = some kb)
    (hmax : 0 < kb / 8 - (2 * OAEP_HASH_BYTES + 2)) :
    (kb / 8 - (2 * OAEP_HASH_BYTES + 2) < utf8Len pt →
      rsa_encrypt env pt pk =
        (.error (vErr (.sizeLimitExceeded (kb / 8 - (2 * OAEP_HASH_BYTES + 2)))),
         [rsaKeyBitsCmd])) ∧
    (utf8Len pt ≤ kb / 8 - (2 * OAEP_HASH_BYTES + 2) →
      (rsa_encrypt env pt pk).2 = [rsaKeyBitsCmd, rsaEncryptCmd]) := by
  constructor
  · intro hsz
    rw [rsa_encrypt_unfold env pt pk kb h1 h2 h3 hmax, if_pos hsz]
  · intro hsz
    rw [rsa_encrypt_unfold env pt pk kb h1 h2 h3 hmax, if_neg (Nat.not_lt.mpr hsz)]
    by_cases henc : (env.exec rsaEncryptCmd).exitCode ≠ 0
    · rw [if_pos henc]
    · rw [if_neg henc]

set_option maxRecDepth 8192 in
/-- Witness for C7: a 2048-bit key caps the plaintext at 190 bytes; a
191-byte plaintext is rejected with only the introspection invocation
issued, and a short plaintext reaches the encrypt invocation. -/
theorem rsa_encrypt_oaep_bound_witness :
    rsa_encrypt rsaBitsEnv longPlain pubPem =
      (.error (vErr (.sizeLimitExceeded 190)), [rsaKeyBitsCmd]) ∧
    (rsa_encrypt rsaBitsEnv "hi" pubPem).2 = [rsaKeyBitsCmd, rsaEncryptCmd] := by
  constructor
  · have h := (rsa_encrypt_oaep_bound rsaBitsEnv longPlain pubPem 2048
      (by decide) (by decide) (by decide) (by decide)).1 (by decide)
    simpa using h
  · exact (rsa_encrypt_oaep_bound rsaBitsEnv "hi" pubPem 2048
      (by decide) (by decide) (by decide) (by decide)).2 (by decide)

/-- C4 (amended): a validation error detected before any invocation is
returned with an empty trace (symmetric encrypt with caller-supplied IV and
an invalid HMAC key), but the RSA-OAEP oversize check runs only after the
key-introspection subprocess: its validation error is returned with exactly
the introspection invocation in the trace, and the encrypt invocation is
never issued. -/
theorem validation_failure_invocation_boundary :
    (∀ (env : Env) (pt key iv hk : String) (cipher : Option String) (cv : String)
       (kb ivb : List Nat) (e : ValidationError),
      validate_cipher (cipher.getD DEFAULT_CIPHER) = .ok cv →
      utf8Len pt ≤ MAX_INPUT_SIZE →
      validate_aes_key key cv = .ok kb →
      validate_aes_iv iv cv = .ok ivb →
      validate_hex hk = .error e →
      aes_encrypt env pt key (some iv) hk cipher = (.error (vErr e), [])) ∧
    (∀ (env : Env) (pt pk : String) (kb : Nat),
      validate_pem pk = .ok () →
      (env.exec rsaKeyBitsCmd).exitCode = 0 →
      parseKeyBits (env.exec rsaKeyBitsCmd).stdout = some kb →
      0 < kb / 8 - (2 * OAEP_HASH_BYTES + 2) →
      kb / 8 - (2 * OAEP_HASH_BYTES + 2) < utf8Len pt →
      rsa_encrypt env pt pk =
        (.error (vErr (.sizeLimitExceeded (kb / 8 - (2 * OAEP_HASH_BYTES + 2)))),
         [rsaKeyBitsCmd]) ∧
      rsaEncryptCmd ∉ (rsa_encrypt env pt pk).2) := by
  constructor
  · intro env pt key iv hk cipher cv kb ivb e h1 h2 h3 h4 h5
    have hs : validate_size (utf8Bytes pt.data) MAX_INPUT_SIZE = .ok () := by
      have h2' : ¬ (utf8Bytes pt.data).length > MAX_INPUT_SIZE := by
        simpa [utf8Len] using Nat.not_lt.mpr h2
      rw [validate_size, if_neg h2']
    simp only [aes_encrypt, h1, hs, h3, h4, h5]
  · intro env pt pk kb h1 h2 h3 hmax hsz
    have hu := rsa_encrypt_unfold env pt pk kb h1 h2 h3 hmax
    rw [hu, if_pos hsz]
    refine ⟨rfl, ?_⟩
    show rsaEncryptCmd ∉ [rsaKeyBitsCmd]
    decide

set_option maxRecDepth 8192 in
/-- Witness for the amended C4 statement: an invalid HMAC key fails the
symmetric encrypt with an empty trace; an oversized OAEP plaintext fails
with exactly the introspection invocation in the trace. -/
theorem validation_failure_invocation_boundary_witness :
    aes_encrypt macEnv "hi" aesKeyHex (some aesIvHex) "zz" none =
      (.error (vErr (.invalidHex "Hex string contains invalid characters")), []) ∧
    rsa_encrypt rsaBitsEnv longPlain pubPem =
      (.error (vErr (.sizeLimitExceeded 190)), [rsaKeyBitsCmd]) := by
  constructor
  · exact validation_failure_invocation_boundary.1 macEnv "hi" aesKeyHex aesIvHex "zz"
      none "aes-256-cbc" (List.replicate 32 0) (List.replicate 16 0)
      (.invalidHex "Hex string contains invalid characters")
      (by decide) (by decide) (by decide) (by decide) (by decide)
  · have h := (validation_failure_invocation_boundary.2 rsaBitsEnv longPlain pubPem 2048
      (by decide) (by decide) (by decide) (by decide) (by decide)).1
    simpa [OAEP_HASH_BYTES] using h

/-- C1: on a symmetric-decrypt request the keyed MAC is computed over the
received (decoded) ciphertext first — the MAC invocation carries the
ciphertext on stdin — and compared to the caller-supplied MAC (`subtle`
`ct_eq`, functionally byte-list equality); on mismatch the request fails
with the authentication error and the trace holds only the MAC invocation:
no decrypt (`enc -d`) invocation is ever issued. -/
theorem aes_decrypt_bad_mac_no_decrypt
    (env : Env) (ctb key iv hk em : String) (cipher : Option String)
    (cv : String) (kb ivb hkb emb ct eb cb : List Nat)
    (h1 : validate_cipher (cipher.getD DEFAULT_CIPHER) = .ok cv)
    (h2 : validate_aes_key key cv = .ok kb)
    (h3 : validate_aes_iv iv cv = .ok ivb)
    (h4 : validate_hex hk = .ok hkb)
    (h5 : validate_hex em = .ok emb)
    (h6 : b64decode ctb = some ct)
    (h7 : ct.length ≤ MAX_INPUT_SIZE)
    (h8 : (env.exec (hmacHexKeyCmd ct hk "sha256")).exitCode = 0)
    (h9 : hexDecode em.data = some eb)
    (h10 : hexDecode (rustTrim (firstToken
      (env.exec (hmacHexKeyCmd ct hk "sha256")).stdout)).data = some cb)
    (h11 : eb ≠ cb) :
    aes_decrypt env ctb key iv hk em cipher =
      (.error (.executionFailed
        "HMAC verification failed! Ciphertext may have been tampered with."),
       [hmacHexKeyCmd ct hk "sha256"]) ∧
    ∀ c ∈ (aes_decrypt env ctb key iv hk em cipher).2, c.args.head? = some "dgst" := by
  have hs : validate_size ct MAX_INPUT_SIZE = .ok () := by
    rw [validate_size, if_neg (Nat.not_lt.mpr h7)]
  have hha : validate_hash_algo "sha256" = .ok "sha256" := by decide
  have hcond : eb.length ≠ cb.length ∨ eb ≠ cb := Or.inr h11
  have hmain : aes_decrypt env ctb key iv hk em cipher =
      (.error (.executionFailed
        "HMAC verification failed! Ciphertext may have been tampered with."),
       [hmacHexKeyCmd ct hk "sha256"]) := by
    simp only [aes_decrypt, h1, h2, h3, h4, h5, h6, hmac_hex_key, hs, hha, h8, h9, h10]
    simp [h10, h11]
  refine ⟨hmain, ?_⟩
  rw [hmain]
  intro c hc
  rcases List.mem_singleton.mp hc with rfl
  rfl

/-- Witness for C1: decrypting with expected MAC `"ff"` while the oracle's
MAC invocation reports `"00"` fails with the authentication error and a
trace holding only the MAC invocation. -/
theorem aes_decrypt_bad_mac_no_decrypt_witness :
    aes_decrypt macEnv "AAAA" aesKeyHex aesIvHex "00" "ff" none =
      (.error (.executionFailed
        "HMAC verification failed! Ciphertext may have been tampered with."),
       [hmacHexKeyCmd [0, 0, 0] "00" "sha256"]) :=
  (aes_decrypt_bad_mac_no_decrypt macEnv "AAAA" aesKeyHex aesIvHex "00" "ff" none
    "aes-256-cbc" (List.replicate 32 0) (List.replicate 16 0) [0] [255] [0, 0, 0]
    [255] [0] (by decide) (by decide) (by decide) (by decide) (by decide) (by decide)
    (by decide) (by decide) (by decide) (by decide) (by decide)).1

/-- C2: a successful symmetric-encrypt issues the cipher invocation before
the keyed-MAC invocation (trace order `[iv?; enc; mac]`), the MAC invocation
carries the ciphertext read back from the sandbox on stdin (not the
plaintext), and the result returns that ciphertext, the IV used by the
cipher invocation, and the MAC. -/
theorem aes_encrypt_cipher_before_mac
    (env : Env) (pt key hk : String) (cipher : Option String) (cv : String)
    (kb hkb : List Nat)
    (h1 : validate_cipher (cipher.getD DEFAULT_CIPHER) = .ok cv)
    (h2 : utf8Len pt ≤ MAX_INPUT_SIZE)
    (h3 : validate_aes_key key cv = .ok kb)
    (h4 : validate_hex hk = .ok hkb)
    (h5 : (env.readFile "ciphertext.bin").length ≤ MAX_INPUT_SIZE) :
    (∀ (iv : String) (ivb : List Nat),
      validate_aes_iv iv cv = .ok ivb →
      (env.exec (aesEncCmd cv key iv)).exitCode = 0 →
      (env.exec (hmacHexKeyCmd (env.readFile "ciphertext.bin") hk "sha256")).exitCode = 0 →
      aes_encrypt env pt key (some iv) hk cipher =
        (.ok { ciphertext_base64 := b64encode (env.readFile "ciphertext.bin"),
               iv_hex := iv,
               hmac_hex := rustTrim (firstToken
                 (env.exec (hmacHexKeyCmd (env.readFile "ciphertext.bin") hk "sha256")).stdout),
               cipher := cv },
         [aesEncCmd cv key iv,
          hmacHexKeyCmd (env.readFile "ciphertext.bin") hk "sha256"])) ∧
    ((env.exec (randHexCmd ((get_cipher_iv_length cv).getD 16))).exitCode = 0 →
      (env.exec (aesEncCmd cv key
        (rustTrim (env.exec (randHexCmd ((get_cipher_iv_length cv).getD 16))).stdout))).exitCode = 0 →
      (env.exec (hmacHexKeyCmd (env.readFile "ciphertext.bin") hk "sha256")).exitCode = 0 →
      aes_encrypt env pt key none hk cipher =
        (.ok { ciphertext_base64 := b64encode (env.readFile "ciphertext.bin"),
               iv_hex := rustTrim (env.exec (randHexCmd ((get_cipher_iv_length cv).getD 16))).stdout,
               hmac_hex := rustTrim (firstToken
                 (env.exec (hmacHexKeyCmd (env.readFile "ciphertext.bin") hk "sha256")).stdout),
               cipher := cv },
         [randHexCmd ((get_cipher_iv_length cv).getD 16),
          aesEncCmd cv key
            (rustTrim (env.exec (randHexCmd ((get_cipher_iv_length cv).getD 16))).stdout),
          hmacHexKeyCmd (env.readFile "ciphertext.bin") hk "sha256"])) := by
  have hs : validate_size (utf8Bytes pt.data) MAX_INPUT_SIZE = .ok () := by
    have h2' : ¬ (utf8Bytes pt.data).length > MAX_INPUT_SIZE := by
      simpa [utf8Len] using Nat.not_lt.mpr h2
    rw [validate_size, if_neg h2']
  have hsct : validate_size (env.readFile "ciphertext.bin") MAX_INPUT_SIZE = .ok () := by
    rw [validate_size, if_neg (Nat.not_lt.mpr h5)]
  have hha : validate_hash_algo "sha256" = .ok "sha256" := by decide
  constructor
  · intro iv ivb hiv henc hmacx
    simp only [aes_encrypt, h1, hs, h3, hiv, h4, hmac_hex_key, hsct, hha, henc, hmacx]
    simp [henc, hmacx]
  · intro hrand henc hmacx
    simp only [aes_encrypt, h1, hs, h3, h4, hmac_hex_key, hsct, hha, hrand, henc, hmacx]
    simp [hrand, henc, hmacx]

/-- Witness for C2 (caller-supplied IV branch) with the concrete oracle:
the trace is `[enc, mac]`, the MAC invocation's stdin is the ciphertext
`[1, 2, 3]` read from the sandbox, and the result carries its Base64
encoding, the IV, and the parsed MAC. -/
theorem aes_encrypt_cipher_before_mac_witness :
    aes_encrypt macEnv "hi" aesKeyHex (some aesIvHex) "00" none =
      (.ok { ciphertext_base64 := "AQID", iv_hex := aesIvHex,
             hmac_hex := "00", cipher := "aes-256-cbc" },
       [aesEncCmd "aes-256-cbc" aesKeyHex aesIvHex,
        hmacHexKeyCmd [1, 2, 3] "00" "sha256"]) := by
  have h := (aes_encrypt_cipher_before_mac macEnv "hi" aesKeyHex "00" none "aes-256-cbc"
    (List.replicate 32 0) [0] (by decide) (by decide) (by decide) (by decide)
    (by decide)).1 aesIvHex (List.replicate 16 0) (by decide) (by decide) (by decide)
  rw [h]
  decide
